import Mathlib

/-!
Shallow embedding of the elevator simulation core (`elevator.py`):
the floor validator, the `Passenger` lifecycle, and the `Elevator`
scheduler with its door/queue state machine and movement algorithm.

Modelling conventions:
* Python ints are `Int`.
* Python exceptions are modelled by the result type `Res σ`: `Res.ok s`
  is a normal return with post-state `s`, `Res.exn err s` is an exception
  of kind `err` raised when the mutable state had been updated to `s`
  (Python mutations before a raise stay visible to the caller).
* `random.randint(1, FLOOR_MAX_LIMIT)` is modelled by drawing a seed from
  an explicit stream (`List Nat`) and mapping it into `1..FLOOR_MAX_LIMIT`
  by `randFloor`; exhausting the stream models non-termination of the
  rejection-sampling loop (`Err.rngExhausted`).
* A Python `set` of floors is a duplicate-free `List Int`:
  `pySetAdd` ignores already-present elements, matching `set.add`.
* `Elevator.passengers` (a Python `set` of objects compared by identity)
  is a `List Passenger`; object identity is the `id` field, which is
  unique among boarded passengers (`add_passenger` rejects duplicates).
  Set-iteration order is fixed to list order, one admissible order.
-/

def FLOOR_MAX_LIMIT : Int := 10

def ELEVATOR_CAPACITY : Nat := 5

/-- The exception kinds of `elevator.py`: `FloorError`, `EnterElevatorError`,
`ElevatorMoveError`, `ElevatorDoorsError`, plus the Python built-in
`IndexError` (possible in `move` when indexing `all_passengers`) and a
marker for a non-terminating rejection-sampling loop. -/
inductive Err where
  | floorErr
  | enterErr
  | moveErr
  | doorsErr
  | indexErr
  | rngExhausted
deriving DecidableEq, Repr

/-- Result of a Python operation on mutable state of type `σ`: a normal
return, or an exception raised with the (possibly partially mutated)
state it leaves behind. -/
inductive Res (σ : Type) where
  | ok : σ → Res σ
  | exn : Err → σ → Res σ
deriving DecidableEq, Repr

/-- The state carried by a result, whether it returned or raised. -/
def Res.state {σ : Type} : Res σ → σ
  | .ok s => s
  | .exn _ s => s

inductive StatusElevator where
  | idle
  | moving
  | «open»
deriving DecidableEq, Repr

inductive Direction where
  | up
  | down
deriving DecidableEq, Repr

/-- `FloorValidatorMixin._validate_floor`: raises `FloorError` when
`not allow_zero and floor < 1`, or when `floor > FLOOR_MAX_LIMIT`. -/
def validate_floor (floor : Int) (allow_zero : Bool) : Except Err Unit :=
  if ¬allow_zero ∧ floor < 1 then .error .floorErr
  else if floor > FLOOR_MAX_LIMIT then .error .floorErr
  else .ok ()

/-- `random.randint(1, FLOOR_MAX_LIMIT)` as a function of a seed: every
seed yields a floor in `1..FLOOR_MAX_LIMIT` and every such floor is the
image of some seed. -/
def randFloor (s : Nat) : Int := 1 + (s % 10 : Nat)

/-- `random.randint(1, 1000)` as a function of a seed. -/
def randId (s : Nat) : Int := 1 + (s % 1000 : Nat)

structure Passenger where
  id : Int
  floor_current : Int
  floor_destination : Int
  elevator_called : Bool
  is_inside : Bool
deriving DecidableEq, Repr

namespace Passenger

/-- The `floor_current` property setter: validates with `allow_zero=True`
(the sentinel 0 means the rider is inside the car). -/
def set_floor_current (p : Passenger) (floor : Int) : Res Passenger :=
  match validate_floor floor true with
  | .error err => .exn err p
  | .ok _ => .ok { p with floor_current := floor }

/-- The `floor_destination` property setter: validates with the sentinel
disallowed. -/
def set_floor_destination (p : Passenger) (floor : Int) : Res Passenger :=
  match validate_floor floor false with
  | .error err => .exn err p
  | .ok _ => .ok { p with floor_destination := floor }

/-- The rejection-sampling loop of `generate_destination`: repeat
`randint(1, FLOOR_MAX_LIMIT)` until the draw differs from `cur`.
`none` models exhausting the seed stream (non-termination). -/
def genDestLoop (cur : Int) : List Nat → Option (Int × List Nat)
  | [] => none
  | s :: rest =>
    if randFloor s = cur then genDestLoop cur rest else some (randFloor s, rest)

/-- `Passenger.generate_destination`: first sets `floor_destination` to
`floor_current` through the validating setter (raising `FloorError` when
`floor_current` is outside `1..FLOOR_MAX_LIMIT`), then redraws until the
destination differs from `floor_current`. -/
def generate_destination (p : Passenger) (rng : List Nat) :
    Res (Passenger × List Nat) :=
  match p.set_floor_destination p.floor_current with
  | .exn err p' => .exn err (p', rng)
  | .ok p1 =>
    match genDestLoop p.floor_current rng with
    | some (d, rng') => .ok ({ p1 with floor_destination := d }, rng')
    | none => .exn .rngExhausted (p1, rng)

end Passenger

structure Elevator where
  status : StatusElevator
  direction : Direction
  floor : Int
  floors_queue : List Int
  passengers : List Passenger
deriving DecidableEq, Repr

/-- Python `set.add` on the duplicate-free list model. -/
def pySetAdd (l : List Int) (f : Int) : List Int :=
  if f ∈ l then l else l ++ [f]

/-- Python `set.remove` on the duplicate-free list model (the call sites
in `elevator.py` only remove members, so `KeyError` cannot arise). -/
def pySetRemove (l : List Int) (f : Int) : List Int :=
  l.filter (fun x => x ≠ f)

namespace Elevator

/-- `Elevator.__init__`. -/
def init : Elevator :=
  { status := .idle, direction := .up, floor := 1,
    floors_queue := [], passengers := [] }

/-- The `floor` property setter: validates with the sentinel disallowed. -/
def set_floor (e : Elevator) (floor : Int) : Res Elevator :=
  match validate_floor floor false with
  | .error err => .exn err e
  | .ok _ => .ok { e with floor := floor }

/-- `Elevator.add_floor_inside`: validate, then add to the floors queue. -/
def add_floor_inside (e : Elevator) (floor : Int) : Res Elevator :=
  match validate_floor floor false with
  | .error err => .exn err e
  | .ok _ => .ok { e with floors_queue := pySetAdd e.floors_queue floor }

/-- `Elevator.add_floor_outside`: validate, then add to the floors queue. -/
def add_floor_outside (e : Elevator) (floor : Int) : Res Elevator :=
  match validate_floor floor false with
  | .error err => .exn err e
  | .ok _ => .ok { e with floors_queue := pySetAdd e.floors_queue floor }

/-- `Elevator.change_direction`. -/
def change_direction (e : Elevator) : Elevator :=
  match e.direction with
  | .up => { e with direction := .down }
  | .down => { e with direction := .up }

/-- `Elevator.open_doors`: legal only from `idle`. -/
def open_doors (e : Elevator) : Res Elevator :=
  if e.status ≠ .idle then .exn .doorsErr e
  else .ok { e with status := .«open» }

/-- `Elevator.close_doors`: legal only from `open`. -/
def close_doors (e : Elevator) : Res Elevator :=
  if e.status ≠ .«open» then .exn .doorsErr e
  else .ok { e with status := .idle }

end Elevator

namespace Passenger

/-- `Passenger.enter_elevator`: enqueue the destination as an outside
call (validated — `FloorError` propagates before any rider mutation),
then set `is_inside`, clear `elevator_called`, and set `floor_current`
to the sentinel 0 through the `allow_zero` setter. -/
def enter_elevator (p : Passenger) (e : Elevator) : Res (Passenger × Elevator) :=
  match e.add_floor_outside p.floor_destination with
  | .exn err e' => .exn err (p, e')
  | .ok e' =>
    let p1 := { p with is_inside := true, elevator_called := false }
    match p1.set_floor_current 0 with
    | .exn err p' => .exn err (p', e')
    | .ok p' => .ok (p', e')

/-- `Passenger.leave_elevator`: set `floor_current` to the elevator's
floor (through the `allow_zero` setter), clear `is_inside`, then
regenerate the destination. -/
def leave_elevator (p : Passenger) (e : Elevator) (rng : List Nat) :
    Res (Passenger × List Nat) :=
  match p.set_floor_current e.floor with
  | .exn err p' => .exn err (p', rng)
  | .ok p1 =>
    let p2 := { p1 with is_inside := false }
    p2.generate_destination rng

end Passenger

namespace Elevator

/-- Ids of the passengers currently aboard (Python set membership is
object identity; ids are unique among boarded passengers). -/
def passengerIds (e : Elevator) : List Int :=
  e.passengers.map Passenger.id

/-- `Elevator.add_passenger`: requires `open` doors and a rider not yet
aboard, then adds the rider to `passengers` and calls
`enter_elevator` on it. In Python the rider object is added to the set
first and then mutated in place; `enter_elevator` can only fail before
mutating the rider, so appending the resulting rider afterwards yields
the same post-state in both the success and the failure case. -/
def add_passenger (e : Elevator) (p : Passenger) : Res (Elevator × Passenger) :=
  if e.status ≠ .«open» then .exn .enterErr (e, p)
  else if p.id ∈ e.passengerIds then .exn .enterErr (e, p)
  else
    match p.enter_elevator e with
    | .exn err (p', e') =>
        .exn err ({ e' with passengers := e'.passengers ++ [p'] }, p')
    | .ok (p', e') =>
        .ok ({ e' with passengers := e'.passengers ++ [p'] }, p')

/-- `Elevator.remove_passenger`: requires `open` doors and a rider
currently aboard; removes it from `passengers` (by identity) and calls
`leave_elevator` on it. -/
def remove_passenger (e : Elevator) (p : Passenger) (rng : List Nat) :
    Res (Elevator × Passenger × List Nat) :=
  if e.status ≠ .«open» then .exn .enterErr (e, p, rng)
  else if p.id ∉ e.passengerIds then .exn .enterErr (e, p, rng)
  else
    let e1 := { e with passengers := e.passengers.filter (fun q => q.id ≠ p.id) }
    match p.leave_elevator e1 rng with
    | .exn err (p', rng') => .exn err (e1, p', rng')
    | .ok (p', rng') => .ok (e1, p', rng')

/-- The boarding loop of `move`: `for passenger in all_passengers[self.floor]:
self.add_passenger(passenger)`. An `EnterElevatorError` raised by
`add_passenger` propagates out of the loop (it is not a `FloorError`,
so `move`'s handler does not catch it). -/
def boardAll (e : Elevator) : List Passenger → Res Elevator
  | [] => .ok e
  | p :: rest =>
    match e.add_passenger p with
    | .exn err (e', _) => .exn err e'
    | .ok (e', _) => boardAll e' rest

/-- Python list indexing `all_passengers[self.floor]`, raising
`IndexError` when the floor is out of range. (At the call site the floor
has just been validated, so it is at least 1 and negative-index
wraparound cannot occur.) -/
def pyIndex (allP : List (List Passenger)) (i : Int) : Res (List Passenger) :=
  if h : 0 ≤ i ∧ i.toNat < allP.length then .ok (allP.get ⟨i.toNat, h.2⟩)
  else .exn .indexErr []

/-- The disembarking loop of `move`: iterate over a snapshot
(`passengers.copy()`) of the passenger set and remove every passenger
whose `floor_destination` equals the current floor. The second component
collects the riders that left the car (their post-`leave_elevator`
states), the third threads the seed stream. `floor` stays fixed during
the loop because `remove_passenger` never moves the car. -/
def disembarkAll (e : Elevator) (floor : Int) (rng : List Nat) :
    List Passenger → Res (Elevator × List Passenger × List Nat)
  | [] => .ok (e, [], rng)
  | p :: rest =>
    if p.floor_destination = floor then
      match e.remove_passenger p rng with
      | .exn err (e', p', rng') => .exn err (e', [p'], rng')
      | .ok (e', p', rng') =>
        match disembarkAll e' floor rng' rest with
        | .ok (e'', out, rng'') => .ok (e'', p' :: out, rng'')
        | .exn err (e'', out, rng'') => .exn err (e'', p' :: out, rng'')
    else disembarkAll e floor rng rest

/-- Whether a queued floor lies strictly ahead of the car in its current
travel direction (the loop body of `move`'s direction-reversal scan). -/
def ahead (d : Direction) (cur f : Int) : Bool :=
  match d with
  | .up => decide (f > cur)
  | .down => decide (f < cur)

/-- The direction-correction tail of `move` (runs after the `try` block
whether or not a `FloorError` was caught): floor 1 forces `up`, floor
`FLOOR_MAX_LIMIT` forces `down`, and otherwise the direction reverses
exactly when no queued floor lies strictly ahead. -/
def directionCorrect (e : Elevator) : Elevator :=
  if e.floor = 1 then { e with direction := .up }
  else if e.floor = FLOOR_MAX_LIMIT then { e with direction := .down }
  else if e.floors_queue.any (fun f => ahead e.direction e.floor f)
    then e
    else e.change_direction

/-- The boarding half of the door cycle: `if all_passengers:` (Python
truthiness — `None` and the empty list are both falsy and both modelled
by `[]`) index the per-floor lists at the current floor and board every
rider waiting there. -/
def boardStep (e : Elevator) (allP : List (List Passenger)) : Res Elevator :=
  if allP ≠ [] then
    match pyIndex allP e.floor with
    | .exn err _ => .exn err e
    | .ok waiting => boardAll e waiting
  else .ok e

/-- The full door cycle executed when the car arrives at a queued floor:
open, board the riders offered for this floor, disembark every passenger
whose destination is this floor, close, and drop the floor from the
queue. Any exception carries the state mutated so far. -/
def doorCycle (e : Elevator) (allP : List (List Passenger)) (rng : List Nat) :
    Res (Elevator × List Passenger × List Nat) :=
  match e.open_doors with
  | .exn err e' => .exn err (e', [], rng)
  | .ok e3 =>
    match boardStep e3 allP with
    | .exn err e' => .exn err (e', [], rng)
    | .ok e4 =>
      match disembarkAll e4 e4.floor rng e4.passengers with
      | .exn err (e', out, rng') => .exn err (e', out, rng')
      | .ok (e5, out, rng') =>
        match e5.close_doors with
        | .exn err e' => .exn err (e', out, rng')
        | .ok e6 =>
          .ok ({ e6 with floors_queue := pySetRemove e6.floors_queue e6.floor },
               out, rng')

/-- The `try` block of `move`: advance one floor through the validating
setter, reset status to `idle`, and if the new floor is queued run the
full door cycle. Any exception carries the state mutated so far. -/
def moveTry (e : Elevator) (allP : List (List Passenger)) (rng : List Nat) :
    Res (Elevator × List Passenger × List Nat) :=
  match e.set_floor (if e.direction = .up then e.floor + 1 else e.floor - 1) with
  | .exn err e' => .exn err (e', [], rng)
  | .ok e1 =>
    let e2 := { e1 with status := .idle }
    if e2.floor ∈ e2.floors_queue then doorCycle e2 allP rng
    else .ok (e2, [], rng)

/-- `Elevator.move`: early exits (empty queue returns immediately; open
doors raise `ElevatorMoveError`), then status `moving`, the `try` block,
the `except FloorError` handler (status back to `idle`, nothing
surfaced), and the direction correction — which runs on both the normal
and the caught-`FloorError` path, but not when another exception
propagates. The returned triple is the elevator, the riders that
disembarked during this step, and the remaining seed stream. -/
def move (e : Elevator) (allP : List (List Passenger)) (rng : List Nat) :
    Res (Elevator × List Passenger × List Nat) :=
  if e.floors_queue = [] then .ok (e, [], rng)
  else if e.status = .«open» then .exn .moveErr (e, [], rng)
  else
    match moveTry { e with status := .moving } allP rng with
    | .ok (e', out, rng') => .ok (directionCorrect e', out, rng')
    | .exn .floorErr (e', out, rng') =>
        .ok (directionCorrect { e' with status := .idle }, out, rng')
    | .exn err (e', out, rng') => .exn err (e', out, rng')

end Elevator

/-- Python truthiness of an optional int argument (`if id:`): `None` and
`0` are falsy. -/
def truthy : Option Int → Bool
  | none => false
  | some v => v ≠ 0

/-- `Passenger.__init__(floor=None, id=None)`: when `id` is truthy,
`floor_current` is set to `id` (through the `allow_zero` setter) — the
`floor` argument is never read; otherwise `floor_current` is a random
floor. Then `id` is assigned (random when the argument is falsy), and a
destination is generated. -/
def mkPassenger (floor : Option Int) (idArg : Option Int) (rng : List Nat) :
    Res (Passenger × List Nat) :=
  let p0 : Passenger :=
    { id := 0, floor_current := 0, floor_destination := 0,
      elevator_called := false, is_inside := false }
  let step1 : Res (Passenger × List Nat) :=
    if truthy idArg then
      match p0.set_floor_current (idArg.getD 0) with
      | .exn err p' => .exn err (p', rng)
      | .ok p1 => .ok (p1, rng)
    else
      match rng with
      | [] => .exn .rngExhausted (p0, rng)
      | s :: rest =>
        match p0.set_floor_current (randFloor s) with
        | .exn err p' => .exn err (p', rest)
        | .ok p1 => .ok (p1, rest)
  match step1 with
  | .exn err st => .exn err st
  | .ok (p1, rng1) =>
    let step2 : Res (Passenger × List Nat) :=
      if ¬ truthy idArg then
        match rng1 with
        | [] => .exn .rngExhausted (p1, rng1)
        | s :: rest => .ok ({ p1 with id := randId s }, rest)
      else .ok ({ p1 with id := idArg.getD 0 }, rng1)
    match step2 with
    | .exn err st => .exn err st
    | .ok (p2, rng2) =>
      p2.generate_destination rng2

/-! ### Concrete fixtures used by witnesses and counterexamples -/

/-- An elevator with open doors and an empty floors queue. -/
def eOpenEmpty : Elevator :=
  { status := .«open», direction := .up, floor := 3,
    floors_queue := [], passengers := [] }

/-- An elevator with open doors and a pending floor. -/
def eOpenQueued : Elevator :=
  { status := .«open», direction := .up, floor := 3,
    floors_queue := [5], passengers := [] }

/-- An elevator idle at floor 1 pointing down, with floor 3 queued. -/
def eBottomDown : Elevator :=
  { status := .idle, direction := .down, floor := 1,
    floors_queue := [3], passengers := [] }

/-- A rider aboard the car with destination 2. -/
def pC5 : Passenger :=
  { id := 7, floor_current := 0, floor_destination := 2,
    elevator_called := false, is_inside := true }

/-- The door-cycle scenario: idle at floor 1 pointing up, floor 2 queued,
`pC5` aboard. -/
def eC5 : Elevator :=
  { status := .idle, direction := .up, floor := 1,
    floors_queue := [2], passengers := [pC5] }

/-- An idle elevator at floor 2 with floor 5 queued (a floor ahead). -/
def eScanAhead : Elevator :=
  { status := .idle, direction := .up, floor := 2,
    floors_queue := [5], passengers := [] }

/-- A waiting rider with destination 4. -/
def pWait : Passenger :=
  { id := 42, floor_current := 3, floor_destination := 4,
    elevator_called := true, is_inside := false }

/-- An open car already filled to `ELEVATOR_CAPACITY`. -/
def eFull : Elevator :=
  { status := .«open», direction := .up, floor := 3,
    floors_queue := [4], passengers :=
      [{ id := 1, floor_current := 0, floor_destination := 4,
         elevator_called := false, is_inside := true },
       { id := 2, floor_current := 0, floor_destination := 4,
         elevator_called := false, is_inside := true },
       { id := 3, floor_current := 0, floor_destination := 5,
         elevator_called := false, is_inside := true },
       { id := 4, floor_current := 0, floor_destination := 6,
         elevator_called := false, is_inside := true },
       { id := 5, floor_current := 0, floor_destination := 7,
         elevator_called := false, is_inside := true }] }

/-- The rider state produced by a successful `enter_elevator`:
`floor_current` at the sentinel 0, `elevator_called` cleared,
`is_inside` set. -/
def boardedState (p : Passenger) : Passenger :=
  { p with floor_current := 0, elevator_called := false, is_inside := true }

/-! ### The core operations as a transition system

The claims about reachable states quantify over sequences of the core
operations (queue insertion from inside or outside, one movement step,
boarding, disembarking, door transitions). Each operation is applied to
the combined mutable state (elevator plus seed stream); an operation
that raises leaves behind the state carried by the exception, which is
exactly what a Python caller observes after catching it. -/

inductive Op where
  | addInside (f : Int)
  | addOutside (f : Int)
  | move (allP : List (List Passenger))
  | board (p : Passenger)
  | disembark (pid : Int)
  | openDoors
  | closeDoors

/-- The mutable state of a simulation: the elevator and the remaining
seed stream. -/
structure Sys where
  elev : Elevator
  rng : List Nat

/-- Apply one core operation. `disembark pid` calls `remove_passenger`
on the aboard rider with that id (a Python caller holds a reference to
that very object); if no such rider is aboard, `remove_passenger` raises
before mutating anything, so the state is unchanged. -/
def step (s : Sys) (op : Op) : Sys :=
  match op with
  | .addInside f => { s with elev := (s.elev.add_floor_inside f).state }
  | .addOutside f => { s with elev := (s.elev.add_floor_outside f).state }
  | .openDoors => { s with elev := (s.elev.open_doors).state }
  | .closeDoors => { s with elev := (s.elev.close_doors).state }
  | .board p => { s with elev := ((s.elev.add_passenger p).state).1 }
  | .disembark pid =>
    match s.elev.passengers.find? (fun q => q.id = pid) with
    | some p =>
      let r := (s.elev.remove_passenger p s.rng).state
      { elev := r.1, rng := r.2.2 }
    | none => s
  | .move allP =>
    let r := (s.elev.move allP s.rng).state
    { elev := r.1, rng := r.2.2 }

/-- Run a sequence of core operations. -/
def run (s : Sys) : List Op → Sys
  | [] => s
  | op :: ops => run (step s op) ops

/-- The initial system: a fresh elevator and an arbitrary seed stream. -/
def Sys.init (rng : List Nat) : Sys :=
  { elev := Elevator.init, rng := rng }

/-- The queue invariant: every queued floor lies in
`1..FLOOR_MAX_LIMIT`. -/
def QueueInv (e : Elevator) : Prop :=
  ∀ f ∈ e.floors_queue, 1 ≤ f ∧ f ≤ FLOOR_MAX_LIMIT

/-- A rider whose destination lies in the floor domain — guaranteed for
every rider built through the validating setters. -/
def destValid (p : Passenger) : Prop :=
  1 ≤ p.floor_destination ∧ p.floor_destination ≤ FLOOR_MAX_LIMIT

/-- The passenger invariant: every aboard rider's destination is still a
queued stop. -/
def PassInv (e : Elevator) : Prop :=
  ∀ p ∈ e.passengers, p.floor_destination ∈ e.floors_queue

/-- Well-formedness of an operation's rider arguments: riders handed to
`board` (directly, or via `move`'s per-floor waiting lists) have
destinations in the floor domain, as every rider constructed through the
validated setters does. -/
def OpWF : Op → Prop
  | .board p => destValid p
  | .move allP => ∀ l ∈ allP, ∀ p ∈ l, destValid p
  | _ => True

/-- The combined reachable-state invariant. -/
def CoreInv (e : Elevator) : Prop :=
  QueueInv e ∧ PassInv e

/-! ### Theorems -/

/-- C2, counterexample: with the sentinel allowed, the validator accepts
the negative floor `-1` (the `allow_zero` flag disables the whole lower
bound in `_validate_floor`), whereas the claim requires every negative
floor to fail even with the sentinel allowed. -/
theorem C2_counterexample :
    validate_floor (-1) true = Except.ok () ∧
    validate_floor (-1) true ≠ Except.error Err.floorErr := by
  constructor
  · rfl
  · intro h
    exact Except.noConfusion h

/-- C2, amended: `_validate_floor` fails with `FloorError` exactly when
`floor > FLOOR_MAX_LIMIT`, or when `floor < 1` and `allow_zero` is
false; with the sentinel allowed the lower bound is skipped entirely, so
every floor `≤ FLOOR_MAX_LIMIT` — zero and all negative floors included —
is accepted. -/
theorem C2_theorem (f : Int) (az : Bool) :
    (validate_floor f az = Except.error Err.floorErr ↔
      ((az = false ∧ f < 1) ∨ FLOOR_MAX_LIMIT < f)) ∧
    (validate_floor f az = Except.ok () ↔
      ¬((az = false ∧ f < 1) ∨ FLOOR_MAX_LIMIT < f)) := by
  unfold validate_floor
  cases az <;> split_ifs <;> simp_all

/-- C3, counterexample: `move` on an elevator with open doors but an
empty floors queue returns normally (the empty-queue early exit runs
before the open-doors check), so it does not fail with `MoveError`. -/
theorem C3_counterexample :
    Elevator.move eOpenEmpty [] [] = Res.ok (eOpenEmpty, [], []) ∧
    ∀ s, Elevator.move eOpenEmpty [] [] ≠ Res.exn Err.moveErr s := by
  refine ⟨rfl, ?_⟩
  intro s h
  rw [show Elevator.move eOpenEmpty [] [] = Res.ok (eOpenEmpty, [], []) from rfl] at h
  exact Res.noConfusion h

/-- C3, amended: for every elevator state with `status == Open` and a
non-empty `floor_queue`, `move()` fails with `MoveError` and leaves the
entire state (floor, direction, status, floor_queue, passengers)
unchanged. -/
theorem C3_theorem (e : Elevator) (allP : List (List Passenger)) (rng : List Nat)
    (hopen : e.status = .«open») (hq : e.floors_queue ≠ []) :
    Elevator.move e allP rng = Res.exn Err.moveErr (e, [], rng) := by
  unfold Elevator.move
  rw [if_neg hq, if_pos hopen]

/-- C3, witness at a concrete open, nonempty-queue elevator. -/
theorem C3_witness :
    Elevator.move eOpenQueued [] [] = Res.exn Err.moveErr (eOpenQueued, [], []) :=
  C3_theorem eOpenQueued [] [] rfl (by simp [eOpenQueued])

/-- C7 (code bug): `Passenger.__init__` never reads its `floor`
argument — when an `id` is supplied the id is assigned to
`floor_current`. Constructing a rider with starting floor 5 and id 7
yields `floor_current == 7`, not 5 (and the generated destination,
drawn with seed 0, is 1). -/
theorem C7_theorem :
    mkPassenger (some 5) (some 7) [0] =
      Res.ok ({ id := 7, floor_current := 7, floor_destination := 1,
                elevator_called := false, is_inside := false }, []) ∧
    (7 : Int) ≠ 5 := by
  constructor
  · rfl
  · decide

/-- C4: with a non-empty queue and doors not open, when the advance step
would leave `1..FLOOR_MAX_LIMIT` (floor 1 heading down, or floor
`FLOOR_MAX_LIMIT` heading up), `move()` returns normally — the internal
`FloorError` is not surfaced — with the floor and queue (and passengers)
unchanged, status reset to `idle`, and the direction corrected by the
boundary rule (floor 1 forces `up`, floor `FLOOR_MAX_LIMIT` forces
`down`). -/
theorem C4_theorem (e : Elevator) (allP : List (List Passenger)) (rng : List Nat)
    (hq : e.floors_queue ≠ []) (hs : e.status ≠ .«open»)
    (hb : (e.floor = 1 ∧ e.direction = .down) ∨
          (e.floor = FLOOR_MAX_LIMIT ∧ e.direction = .up)) :
    Elevator.move e allP rng =
      Res.ok ({ e with status := .idle,
                       direction := if e.floor = 1 then .up else .down },
              [], rng) := by
  rcases hb with ⟨hf, hd⟩ | ⟨hf, hd⟩ <;>
  · unfold Elevator.move Elevator.moveTry Elevator.set_floor validate_floor
      Elevator.directionCorrect
    rw [if_neg hq, if_neg hs]
    simp [hf, hd, FLOOR_MAX_LIMIT, Elevator.change_direction]

/-- C4, witness: idle at floor 1 heading down with floor 3 queued — one
`move()` returns normally, stays at floor 1, keeps the queue, and turns
the direction up. -/
theorem C4_witness :
    Elevator.move eBottomDown [] [] =
      Res.ok ({ eBottomDown with status := .idle, direction := .up }, [], []) := by
  have h := C4_theorem eBottomDown [] [] (by simp [eBottomDown])
    (by simp [eBottomDown]) (Or.inl ⟨rfl, rfl⟩)
  simpa [eBottomDown] using h

/-- Success shape of `add_passenger`: open doors, rider not aboard, and
an in-range destination give the exact post-state. -/
theorem add_passenger_ok (e : Elevator) (p : Passenger)
    (hs : e.status = .«open») (hmem : p.id ∉ e.passengerIds)
    (h1 : 1 ≤ p.floor_destination) (h2 : p.floor_destination ≤ FLOOR_MAX_LIMIT) :
    e.add_passenger p =
      Res.ok ({ e with floors_queue := pySetAdd e.floors_queue p.floor_destination,
                       passengers := e.passengers ++ [boardedState p] },
              boardedState p) := by
  rw [FLOOR_MAX_LIMIT] at h2
  have hd1 : ¬ p.floor_destination < 1 := by omega
  have hd2 : ¬ p.floor_destination > (10 : Int) := by omega
  simp [Elevator.add_passenger, hs, hmem, Passenger.enter_elevator,
    Elevator.add_floor_outside, validate_floor, FLOOR_MAX_LIMIT, hd1, hd2,
    Passenger.set_floor_current, boardedState]

/-- C6: `board(rider)` (`add_passenger`) fails with `BoardingError`
leaving elevator and rider unchanged whenever the doors are not open or
the rider is already aboard; otherwise (destination in the floor domain,
as the rider data model guarantees) it appends the rider to
`passengers`, enqueues the rider's destination, sets `floor_current` to
the sentinel 0, clears `requested_pickup` (`elevator_called`), and sets
`is_inside`. -/
theorem C6_theorem (e : Elevator) (p : Passenger) :
    ((e.status ≠ .«open» ∨ p.id ∈ e.passengerIds) →
      e.add_passenger p = Res.exn Err.enterErr (e, p)) ∧
    (e.status = .«open» → p.id ∉ e.passengerIds →
      1 ≤ p.floor_destination → p.floor_destination ≤ FLOOR_MAX_LIMIT →
      e.add_passenger p =
        Res.ok ({ e with floors_queue := pySetAdd e.floors_queue p.floor_destination,
                         passengers := e.passengers ++ [boardedState p] },
                boardedState p)) := by
  constructor
  · intro h
    by_cases hs : e.status = .«open»
    · rcases h with h | h
      · exact absurd hs h
      · simp [Elevator.add_passenger, hs, h]
    · simp [Elevator.add_passenger, hs]
  · intro hs hmem h1 h2
    exact add_passenger_ok e p hs hmem h1 h2

/-- C6, witness: boarding fails on an idle elevator, and succeeds on an
open one with the documented post-state. -/
theorem C6_witness :
    eBottomDown.add_passenger pWait = Res.exn Err.enterErr (eBottomDown, pWait) ∧
    eOpenQueued.add_passenger pWait =
      Res.ok ({ eOpenQueued with floors_queue := [5, 4], passengers := [boardedState pWait] }, boardedState pWait) := by
  constructor
  · exact (C6_theorem eBottomDown pWait).1 (Or.inl (by simp [eBottomDown]))
  · have h := (C6_theorem eOpenQueued pWait).2 rfl
      (by simp [eOpenQueued, Elevator.passengerIds])
      (by simp [pWait]) (by simp [pWait, FLOOR_MAX_LIMIT])
    simpa [eOpenQueued, pWait, pySetAdd] using h

/-- C8: no operation enforces `ELEVATOR_CAPACITY` — boarding succeeds
for every open elevator and rider not already aboard, even when the
passenger count already reaches or exceeds the capacity constant. -/
theorem C8_theorem (e : Elevator) (p : Passenger)
    (hs : e.status = .«open») (hmem : p.id ∉ e.passengerIds)
    (h1 : 1 ≤ p.floor_destination) (h2 : p.floor_destination ≤ FLOOR_MAX_LIMIT)
    (hcap : ELEVATOR_CAPACITY ≤ e.passengers.length) :
    ∃ r, e.add_passenger p = Res.ok r :=
  ⟨_, add_passenger_ok e p hs hmem h1 h2⟩

/-- C8, witness: a car already holding `ELEVATOR_CAPACITY` riders still
boards one more. -/
theorem C8_witness : ∃ r, eFull.add_passenger pWait = Res.ok r :=
  C8_theorem eFull pWait rfl (by simp [eFull, Elevator.passengerIds, pWait])
    (by simp [pWait]) (by simp [pWait, FLOOR_MAX_LIMIT])
    (by simp [eFull, ELEVATOR_CAPACITY])

/-- The rejection-sampling loop only ever returns a draw different from
the current floor. -/
theorem genDestLoop_ne (cur d : Int) (rng rng' : List Nat)
    (h : Passenger.genDestLoop cur rng = some (d, rng')) : d ≠ cur := by
  induction rng with
  | nil => simp [Passenger.genDestLoop] at h
  | cons s rest ih =>
    by_cases hc : randFloor s = cur
    · rw [Passenger.genDestLoop, if_pos hc] at h
      exact ih h
    · rw [Passenger.genDestLoop, if_neg hc] at h
      simp only [Option.some.injEq, Prod.mk.injEq] at h
      rw [← h.1]
      exact hc

/-- C5: from the door-cycle scenario (floor 1, direction up, queue
`[2]`, status idle, rider `pC5` aboard with destination 2), one `move()`
that returns ends at floor 2 with the rider out of `passengers`, 2
removed from the queue, status idle, and the rider transitioned to
waiting at floor 2: `floor_current == 2`, `is_inside` cleared, and a
regenerated destination distinct from 2. -/
theorem C5_theorem (rng : List Nat) (e' : Elevator) (out : List Passenger)
    (rng' : List Nat) (h : Elevator.move eC5 [] rng = Res.ok (e', out, rng')) :
    e'.floor = 2 ∧ e'.passengers = [] ∧ e'.floors_queue = [] ∧
    e'.status = .idle ∧
    ∃ p', out = [p'] ∧ p'.id = pC5.id ∧ p'.floor_current = 2 ∧
      p'.is_inside = false ∧ p'.floor_destination ≠ 2 := by
  cases hg : Passenger.genDestLoop 2 rng with
  | none =>
    simp [Elevator.move, Elevator.moveTry, Elevator.doorCycle, Elevator.boardStep,
      Elevator.set_floor, validate_floor,
      Elevator.open_doors, Elevator.close_doors, Elevator.disembarkAll,
      Elevator.remove_passenger, Elevator.passengerIds, Passenger.leave_elevator,
      Passenger.set_floor_current, Passenger.generate_destination,
      Passenger.set_floor_destination, pySetRemove, Elevator.directionCorrect,
      Elevator.change_direction, Elevator.ahead, eC5, pC5, FLOOR_MAX_LIMIT,
      hg] at h
  | some pr =>
    obtain ⟨d, rng2⟩ := pr
    have hd := genDestLoop_ne 2 d rng rng2 hg
    simp [Elevator.move, Elevator.moveTry, Elevator.doorCycle, Elevator.boardStep,
      Elevator.set_floor, validate_floor,
      Elevator.open_doors, Elevator.close_doors, Elevator.disembarkAll,
      Elevator.remove_passenger, Elevator.passengerIds, Passenger.leave_elevator,
      Passenger.set_floor_current, Passenger.generate_destination,
      Passenger.set_floor_destination, pySetRemove, Elevator.directionCorrect,
      Elevator.change_direction, Elevator.ahead, eC5, pC5, FLOOR_MAX_LIMIT,
      hg] at h
    obtain ⟨he, hout, hrng⟩ := h
    subst he hout hrng
    simp [pC5]
    exact hd

/-- `set_floor` never changes the travel direction. -/
theorem dir_set_floor (e : Elevator) (f : Int) :
    ((e.set_floor f).state).direction = e.direction := by
  unfold Elevator.set_floor
  rcases validate_floor f false with _ | _ <;> simp [Res.state]

/-- `add_floor_outside` never changes the travel direction. -/
theorem dir_add_floor_outside (e : Elevator) (f : Int) :
    ((e.add_floor_outside f).state).direction = e.direction := by
  unfold Elevator.add_floor_outside
  rcases validate_floor f false with _ | _ <;> simp [Res.state]

/-- `open_doors` never changes the travel direction. -/
theorem dir_open_doors (e : Elevator) :
    ((e.open_doors).state).direction = e.direction := by
  unfold Elevator.open_doors
  split <;> simp [Res.state]

/-- `close_doors` never changes the travel direction. -/
theorem dir_close_doors (e : Elevator) :
    ((e.close_doors).state).direction = e.direction := by
  unfold Elevator.close_doors
  split <;> simp [Res.state]

/-- `enter_elevator` never changes the elevator's travel direction. -/
theorem dir_enter_elevator (p : Passenger) (e : Elevator) :
    ((p.enter_elevator e).state).2.direction = e.direction := by
  unfold Passenger.enter_elevator
  cases hao : e.add_floor_outside p.floor_destination with
  | exn err e1 =>
    have := dir_add_floor_outside e p.floor_destination
    rw [hao] at this
    simpa [Res.state] using this
  | ok e1 =>
    have := dir_add_floor_outside e p.floor_destination
    rw [hao] at this
    simp only [Res.state] at this
    unfold Passenger.set_floor_current
    rcases validate_floor 0 true with _ | _ <;> simpa [Res.state] using this

/-- `add_passenger` never changes the travel direction. -/
theorem dir_add_passenger (e : Elevator) (p : Passenger) :
    ((e.add_passenger p).state).1.direction = e.direction := by
  unfold Elevator.add_passenger
  split
  · simp [Res.state]
  · split
    · simp [Res.state]
    · cases hen : p.enter_elevator e with
      | exn err pe =>
        obtain ⟨p', e'⟩ := pe
        have := dir_enter_elevator p e
        rw [hen] at this
        simpa [Res.state] using this
      | ok pe =>
        obtain ⟨p', e'⟩ := pe
        have := dir_enter_elevator p e
        rw [hen] at this
        simpa [Res.state] using this

/-- The boarding loop never changes the travel direction. -/
theorem dir_boardAll (ps : List Passenger) (e : Elevator) :
    ((Elevator.boardAll e ps).state).direction = e.direction := by
  induction ps generalizing e with
  | nil => simp [Elevator.boardAll, Res.state]
  | cons p rest ih =>
    unfold Elevator.boardAll
    cases hap : e.add_passenger p with
    | exn err ep =>
      obtain ⟨e', p'⟩ := ep
      have := dir_add_passenger e p
      rw [hap] at this
      simpa [Res.state] using this
    | ok ep =>
      obtain ⟨e', p'⟩ := ep
      have := dir_add_passenger e p
      rw [hap] at this
      simp only [Res.state] at this
      rw [ih e']
      exact this

/-- `remove_passenger` never changes the travel direction. -/
theorem dir_remove_passenger (e : Elevator) (p : Passenger) (rng : List Nat) :
    ((e.remove_passenger p rng).state).1.direction = e.direction := by
  unfold Elevator.remove_passenger
  split
  · simp [Res.state]
  · split
    · simp [Res.state]
    · dsimp only
      split <;> simp [Res.state]

/-- The disembarking loop never changes the travel direction. -/
theorem dir_disembarkAll (snap : List Passenger) (e : Elevator) (floor : Int)
    (rng : List Nat) :
    ((Elevator.disembarkAll e floor rng snap).state).1.direction = e.direction := by
  induction snap generalizing e rng with
  | nil => simp [Elevator.disembarkAll, Res.state]
  | cons p rest ih =>
    unfold Elevator.disembarkAll
    split
    · cases hrp : e.remove_passenger p rng with
      | exn err tr =>
        obtain ⟨e', p', rng'⟩ := tr
        have := dir_remove_passenger e p rng
        rw [hrp] at this
        simpa [Res.state] using this
      | ok tr =>
        obtain ⟨e', p', rng'⟩ := tr
        have hthis := dir_remove_passenger e p rng
        rw [hrp] at hthis
        simp only [Res.state] at hthis
        have h2 := ih e' rng'
        dsimp only
        cases hd : Elevator.disembarkAll e' floor rng' rest with
        | ok tr2 =>
          obtain ⟨e'', o, r⟩ := tr2
          rw [hd] at h2
          simp only [Res.state] at h2
          simp only [Res.state]
          rw [h2, hthis]
        | exn err2 tr2 =>
          obtain ⟨e'', o, r⟩ := tr2
          rw [hd] at h2
          simp only [Res.state] at h2
          simp only [Res.state]
          rw [h2, hthis]
    · exact ih e rng

/-- The boarding step never changes the travel direction. -/
theorem dir_boardStep (e : Elevator) (allP : List (List Passenger)) :
    ((Elevator.boardStep e allP).state).direction = e.direction := by
  unfold Elevator.boardStep
  split
  · cases hpi : Elevator.pyIndex allP e.floor with
    | exn err w => simp [Res.state]
    | ok w => exact dir_boardAll w e
  · simp [Res.state]

/-- The door cycle never changes the travel direction. -/
theorem dir_doorCycle (e : Elevator) (allP : List (List Passenger)) (rng : List Nat) :
    ((Elevator.doorCycle e allP rng).state).1.direction = e.direction := by
  unfold Elevator.doorCycle
  cases hod : e.open_doors with
  | exn err e2 =>
    have := dir_open_doors e
    rw [hod] at this
    simpa [Res.state] using this
  | ok e3 =>
    have h3 := dir_open_doors e
    rw [hod] at h3
    simp only [Res.state] at h3
    dsimp only
    cases hbs : Elevator.boardStep e3 allP with
    | exn err e4 =>
      have := dir_boardStep e3 allP
      rw [hbs] at this
      simp only [Res.state] at this
      simp [Res.state, this, h3]
    | ok e4 =>
      have h4 := dir_boardStep e3 allP
      rw [hbs] at h4
      simp only [Res.state] at h4
      dsimp only
      cases hda : Elevator.disembarkAll e4 e4.floor rng e4.passengers with
      | exn err tr =>
        obtain ⟨e5, o, r⟩ := tr
        have := dir_disembarkAll e4.passengers e4 e4.floor rng
        rw [hda] at this
        simp only [Res.state] at this
        simp [Res.state, this, h4, h3]
      | ok tr =>
        obtain ⟨e5, o, r⟩ := tr
        have h5 := dir_disembarkAll e4.passengers e4 e4.floor rng
        rw [hda] at h5
        simp only [Res.state] at h5
        dsimp only
        cases hcd : e5.close_doors with
        | exn err e6 =>
          have := dir_close_doors e5
          rw [hcd] at this
          simp only [Res.state] at this
          simp [Res.state, this, h5, h4, h3]
        | ok e6 =>
          have h6 := dir_close_doors e5
          rw [hcd] at h6
          simp only [Res.state] at h6
          simp [Res.state, h6, h5, h4, h3]

/-- The whole `try` block of `move` never changes the travel direction
(only the final direction correction does). -/
theorem dir_moveTry (e : Elevator) (allP : List (List Passenger)) (rng : List Nat) :
    ((Elevator.moveTry e allP rng).state).1.direction = e.direction := by
  unfold Elevator.moveTry
  cases hsf : e.set_floor (if e.direction = .up then e.floor + 1 else e.floor - 1) with
  | exn err e1 =>
    have := dir_set_floor e (if e.direction = .up then e.floor + 1 else e.floor - 1)
    rw [hsf] at this
    simpa [Res.state] using this
  | ok e1 =>
    have h1 := dir_set_floor e (if e.direction = .up then e.floor + 1 else e.floor - 1)
    rw [hsf] at h1
    simp only [Res.state] at h1
    dsimp only
    split
    · have := dir_doorCycle { e1 with status := .idle } allP rng
      simp only [Res.state] at this ⊢
      rw [this]
      exact h1
    · simpa [Res.state] using h1

/-- The direction correction never moves the car. -/
theorem directionCorrect_floor (e : Elevator) :
    (Elevator.directionCorrect e).floor = e.floor := by
  obtain ⟨st, d, fl, q, ps⟩ := e
  unfold Elevator.directionCorrect Elevator.change_direction
  split_ifs <;> cases d <;> rfl

/-- The direction correction never touches the floors queue. -/
theorem directionCorrect_queue (e : Elevator) :
    (Elevator.directionCorrect e).floors_queue = e.floors_queue := by
  obtain ⟨st, d, fl, q, ps⟩ := e
  unfold Elevator.directionCorrect Elevator.change_direction
  split_ifs <;> cases d <;> rfl

/-- Strictly inside the building, the direction correction reverses the
travel direction exactly when no queued floor lies strictly ahead. -/
theorem directionCorrect_dir (e : Elevator) (h1 : 1 < e.floor)
    (h2 : e.floor < FLOOR_MAX_LIMIT) :
    ((Elevator.directionCorrect e).direction ≠ e.direction) ↔
      (∀ f ∈ e.floors_queue, Elevator.ahead e.direction e.floor f = false) := by
  have hne1 : ¬ e.floor = 1 := by omega
  have hne2 : ¬ e.floor = FLOOR_MAX_LIMIT := by omega
  unfold Elevator.directionCorrect
  rw [if_neg hne1, if_neg hne2]
  cases ha : e.floors_queue.any (fun f => Elevator.ahead e.direction e.floor f) with
  | true =>
    simp only [List.any_eq_true] at ha
    obtain ⟨f, hfq, hf⟩ := ha
    simp only [if_true, ne_eq, not_true_eq_false, false_iff, not_forall]
    exact ⟨f, hfq, by simp [hf]⟩
  | false =>
    simp only [List.any_eq_false] at ha
    simp only [Bool.false_eq_true, if_false]
    constructor
    · intro _
      intro f hfq
      have := ha f hfq
      simpa using this
    · intro _
      obtain ⟨st, d, fl, q, ps⟩ := e
      cases d <;> simp [Elevator.change_direction]

/-- Relating a post-correction state to the pre-correction scan: used by
both exit paths of `move`. -/
theorem directionCorrect_spec (e m : Elevator) (hdir : m.direction = e.direction)
    (h1 : 1 < (Elevator.directionCorrect m).floor)
    (h2 : (Elevator.directionCorrect m).floor < FLOOR_MAX_LIMIT) :
    (((Elevator.directionCorrect m).direction ≠ e.direction) ↔
      (∀ f ∈ (Elevator.directionCorrect m).floors_queue,
        Elevator.ahead e.direction (Elevator.directionCorrect m).floor f = false)) := by
  rw [directionCorrect_floor] at h1 h2
  rw [directionCorrect_queue, directionCorrect_floor, ← hdir]
  exact directionCorrect_dir m h1 h2

/-- C1: whenever `move()` returns normally from a state with a non-empty
queue and the car ends strictly between floor 1 and `FLOOR_MAX_LIMIT`,
the direction is reversed if and only if no floor of the (final) floors
queue lies strictly ahead of the new floor in the direction the car was
travelling (`>` when up, `<` when down); in particular a queue with a
floor ahead leaves the direction unchanged, and a queue with only floors
behind reverses it. -/
theorem C1_theorem (e : Elevator) (allP : List (List Passenger)) (rng : List Nat)
    (e' : Elevator) (out : List Passenger) (rng' : List Nat)
    (hq : e.floors_queue ≠ [])
    (h : Elevator.move e allP rng = Res.ok (e', out, rng'))
    (h1 : 1 < e'.floor) (h2 : e'.floor < FLOOR_MAX_LIMIT) :
    ((e'.direction ≠ e.direction) ↔
      (∀ f ∈ e'.floors_queue, Elevator.ahead e.direction e'.floor f = false)) := by
  unfold Elevator.move at h
  rw [if_neg hq] at h
  by_cases hs : e.status = .«open»
  · rw [if_pos hs] at h
    exact absurd h (by simp)
  · rw [if_neg hs] at h
    have hdir0 := dir_moveTry { e with status := .moving } allP rng
    cases hmt : Elevator.moveTry { e with status := .moving } allP rng with
    | ok tr =>
      obtain ⟨m, o, r⟩ := tr
      rw [hmt] at h hdir0
      simp only [Res.state] at hdir0
      dsimp only at h
      simp only [Res.ok.injEq, Prod.mk.injEq] at h
      obtain ⟨hE, -, -⟩ := h
      subst hE
      exact directionCorrect_spec e m hdir0 h1 h2
    | exn err tr =>
      obtain ⟨m, o, r⟩ := tr
      rw [hmt] at h hdir0
      simp only [Res.state] at hdir0
      cases err <;> dsimp only at h <;> try exact Res.noConfusion h
      simp only [Res.ok.injEq, Prod.mk.injEq] at h
      obtain ⟨hE, -, -⟩ := h
      subst hE
      exact directionCorrect_spec e { m with status := .idle } hdir0 h1 h2

/-- C1, witness: from floor 2 going up with floor 5 queued, a normal
`move()` ends at floor 3; 5 lies strictly ahead, and indeed the
direction is not reversed. -/
theorem C1_witness :
    (((⟨.idle, .up, 3, [5], []⟩ : Elevator).direction ≠ eScanAhead.direction) ↔
      (∀ f ∈ (⟨.idle, .up, 3, [5], []⟩ : Elevator).floors_queue,
        Elevator.ahead eScanAhead.direction (⟨.idle, .up, 3, [5], []⟩ : Elevator).floor f = false)) :=
  C1_theorem eScanAhead [] [] ⟨.idle, .up, 3, [5], []⟩ [] []
    (by simp [eScanAhead]) rfl (by decide) (by decide)

/-- A floor accepted by the sentinel-free validator lies in the floor
domain. -/
theorem validate_ok_bounds (f : Int) (u : Unit)
    (h : validate_floor f false = Except.ok u) :
    1 ≤ f ∧ f ≤ FLOOR_MAX_LIMIT := by
  unfold validate_floor at h
  rw [FLOOR_MAX_LIMIT] at h ⊢
  by_cases h1 : f < 1
  · rw [if_pos (by simp [h1])] at h
    exact Except.noConfusion h
  · by_cases h2 : f > (10 : Int)
    · rw [if_neg (by simp [h1]), if_pos h2] at h
      exact Except.noConfusion h
    · omega

/-- An in-domain floor passes the sentinel-free validator. -/
theorem validate_of_bounds (f : Int) (h1 : 1 ≤ f) (h2 : f ≤ FLOOR_MAX_LIMIT) :
    validate_floor f false = Except.ok () := by
  unfold validate_floor
  rw [if_neg (by simp; omega), if_neg (by omega)]

/-- Membership after a Python `set.add`. -/
theorem mem_pySetAdd (l : List Int) (f a : Int) :
    a ∈ pySetAdd l f ↔ a ∈ l ∨ a = f := by
  unfold pySetAdd
  split_ifs with hf
  · constructor
    · exact Or.inl
    · rintro (h | rfl)
      · exact h
      · exact hf
  · simp

/-- `QueueInv` survives a validated queue insertion. -/
theorem QueueInv_pySetAdd (l : List Int) (f : Int) (hq : ∀ x ∈ l, 1 ≤ x ∧ x ≤ FLOOR_MAX_LIMIT)
    (h1 : 1 ≤ f) (h2 : f ≤ FLOOR_MAX_LIMIT) :
    ∀ x ∈ pySetAdd l f, 1 ≤ x ∧ x ≤ FLOOR_MAX_LIMIT := by
  intro x hx
  rcases (mem_pySetAdd l f x).1 hx with h | rfl
  · exact hq x h
  · exact ⟨h1, h2⟩

/-- `add_floor_inside` preserves the combined invariant. -/
theorem inv_add_floor_inside (e : Elevator) (f : Int) (h : CoreInv e) :
    CoreInv ((e.add_floor_inside f).state) := by
  unfold Elevator.add_floor_inside
  cases hv : validate_floor f false with
  | error err => simpa [Res.state] using h
  | ok u =>
    obtain ⟨hb1, hb2⟩ := validate_ok_bounds f u hv
    refine ⟨?_, ?_⟩
    · exact QueueInv_pySetAdd e.floors_queue f h.1 hb1 hb2
    · intro p hp
      exact (mem_pySetAdd _ _ _).2 (Or.inl (h.2 p hp))

/-- `add_floor_outside` preserves the combined invariant. -/
theorem inv_add_floor_outside (e : Elevator) (f : Int) (h : CoreInv e) :
    CoreInv ((e.add_floor_outside f).state) := by
  unfold Elevator.add_floor_outside
  cases hv : validate_floor f false with
  | error err => simpa [Res.state] using h
  | ok u =>
    obtain ⟨hb1, hb2⟩ := validate_ok_bounds f u hv
    refine ⟨?_, ?_⟩
    · exact QueueInv_pySetAdd e.floors_queue f h.1 hb1 hb2
    · intro p hp
      exact (mem_pySetAdd _ _ _).2 (Or.inl (h.2 p hp))

/-- `open_doors` preserves the combined invariant. -/
theorem inv_open_doors (e : Elevator) (h : CoreInv e) :
    CoreInv ((e.open_doors).state) := by
  unfold Elevator.open_doors
  split <;> simpa [Res.state] using h

/-- `close_doors` preserves the combined invariant. -/
theorem inv_close_doors (e : Elevator) (h : CoreInv e) :
    CoreInv ((e.close_doors).state) := by
  unfold Elevator.close_doors
  split <;> simpa [Res.state] using h

/-- `set_floor` preserves the combined invariant. -/
theorem inv_set_floor (e : Elevator) (f : Int) (h : CoreInv e) :
    CoreInv ((e.set_floor f).state) := by
  unfold Elevator.set_floor
  cases validate_floor f false <;> simpa [Res.state] using h

/-- Membership after a Python `set.remove`. -/
theorem mem_pySetRemove (l : List Int) (f a : Int) :
    a ∈ pySetRemove l f ↔ a ∈ l ∧ a ≠ f := by
  unfold pySetRemove
  simp [List.mem_filter]

/-- Shape of a successful `set_floor`. -/
theorem set_floor_ok_shape (e : Elevator) (f : Int) (e1 : Elevator)
    (h : e.set_floor f = Res.ok e1) : e1 = { e with floor := f } := by
  unfold Elevator.set_floor at h
  split at h
  · exact Res.noConfusion h
  · simp only [Res.ok.injEq] at h
    exact h.symm

/-- Shape of a successful `open_doors`. -/
theorem open_doors_ok_shape (e : Elevator) (e1 : Elevator)
    (h : e.open_doors = Res.ok e1) : e1 = { e with status := .«open» } := by
  unfold Elevator.open_doors at h
  split at h
  · exact Res.noConfusion h
  · simp only [Res.ok.injEq] at h
    exact h.symm

/-- Shape of a successful `close_doors`. -/
theorem close_doors_ok_shape (e : Elevator) (e1 : Elevator)
    (h : e.close_doors = Res.ok e1) : e1 = { e with status := .idle } := by
  unfold Elevator.close_doors at h
  split at h
  · exact Res.noConfusion h
  · simp only [Res.ok.injEq] at h
    exact h.symm

/-- Successful `remove_passenger` filters exactly the rider's id out of
the passenger set. -/
theorem remove_passenger_ok_shape (e : Elevator) (p : Passenger) (rng : List Nat)
    (e1 : Elevator) (p1 : Passenger) (r1 : List Nat)
    (h : e.remove_passenger p rng = Res.ok (e1, p1, r1)) :
    e1 = { e with passengers := e.passengers.filter (fun q => q.id ≠ p.id) } := by
  unfold Elevator.remove_passenger at h
  split at h
  · exact Res.noConfusion h
  · split at h
    · exact Res.noConfusion h
    · dsimp only at h
      split at h
      · exact Res.noConfusion h
      · simp only [Res.ok.injEq, Prod.mk.injEq] at h
        exact h.1.symm

/-- `add_passenger` preserves the combined invariant when the incoming
rider's destination is in the floor domain. -/
theorem inv_add_passenger (e : Elevator) (p : Passenger) (hp : destValid p)
    (h : CoreInv e) : CoreInv (((e.add_passenger p).state).1) := by
  by_cases hs : e.status = .«open»
  · by_cases hm : p.id ∈ e.passengerIds
    · have heq : e.add_passenger p = Res.exn Err.enterErr (e, p) := by
        unfold Elevator.add_passenger
        rw [if_neg (by simp [hs]), if_pos hm]
      rw [heq]
      simpa [Res.state] using h
    · rw [add_passenger_ok e p hs hm hp.1 hp.2]
      simp only [Res.state]
      refine ⟨QueueInv_pySetAdd e.floors_queue p.floor_destination h.1 hp.1 hp.2, ?_⟩
      intro q hq
      rcases List.mem_append.1 hq with hq | hq
      · exact (mem_pySetAdd _ _ _).2 (Or.inl (h.2 q hq))
      · rw [List.mem_singleton] at hq
        subst hq
        exact (mem_pySetAdd _ _ _).2 (Or.inr (by simp [boardedState]))
  · have heq : e.add_passenger p = Res.exn Err.enterErr (e, p) := by
      unfold Elevator.add_passenger
      rw [if_pos hs]
    rw [heq]
    simpa [Res.state] using h

/-- The boarding loop preserves the combined invariant when every
offered rider has an in-domain destination. -/
theorem inv_boardAll (ps : List Passenger) (e : Elevator)
    (hps : ∀ p ∈ ps, destValid p) (h : CoreInv e) :
    CoreInv ((Elevator.boardAll e ps).state) := by
  induction ps generalizing e with
  | nil => simpa [Elevator.boardAll, Res.state] using h
  | cons p rest ih =>
    unfold Elevator.boardAll
    have hinv := inv_add_passenger e p (hps p (List.mem_cons_self p rest)) h
    cases hap : e.add_passenger p with
    | exn err ep =>
      obtain ⟨e', p'⟩ := ep
      rw [hap] at hinv
      simpa [Res.state] using hinv
    | ok ep =>
      obtain ⟨e', p'⟩ := ep
      rw [hap] at hinv
      simp only [Res.state] at hinv
      exact ih e' (fun q hq => hps q (List.mem_cons_of_mem p hq)) hinv

/-- `remove_passenger` preserves the combined invariant. -/
theorem inv_remove_passenger (e : Elevator) (p : Passenger) (rng : List Nat)
    (h : CoreInv e) : CoreInv (((e.remove_passenger p rng).state).1) := by
  unfold Elevator.remove_passenger
  split
  · simpa [Res.state] using h
  · split
    · simpa [Res.state] using h
    · dsimp only
      split <;>
      · simp only [Res.state]
        exact ⟨h.1, fun q hq => h.2 q (List.mem_of_mem_filter hq)⟩

/-- The disembarking loop preserves the combined invariant. -/
theorem inv_disembarkAll (snap : List Passenger) (e : Elevator) (floor : Int)
    (rng : List Nat) (h : CoreInv e) :
    CoreInv (((Elevator.disembarkAll e floor rng snap).state).1) := by
  induction snap generalizing e rng with
  | nil => simpa [Elevator.disembarkAll, Res.state] using h
  | cons p rest ih =>
    unfold Elevator.disembarkAll
    split
    · have hinv := inv_remove_passenger e p rng h
      cases hrp : e.remove_passenger p rng with
      | exn err tr =>
        obtain ⟨e', p', rng'⟩ := tr
        rw [hrp] at hinv
        simpa [Res.state] using hinv
      | ok tr =>
        obtain ⟨e', p', rng'⟩ := tr
        rw [hrp] at hinv
        simp only [Res.state] at hinv
        have h2 := ih e' rng' hinv
        dsimp only
        cases hd : Elevator.disembarkAll e' floor rng' rest with
        | ok tr2 =>
          obtain ⟨e'', o, r⟩ := tr2
          rw [hd] at h2
          simpa [Res.state] using h2
        | exn err2 tr2 =>
          obtain ⟨e'', o, r⟩ := tr2
          rw [hd] at h2
          simpa [Res.state] using h2
    · exact ih e rng h

/-- `remove_passenger` never moves the car. -/
theorem floor_remove_passenger (e : Elevator) (p : Passenger) (rng : List Nat) :
    (((e.remove_passenger p rng).state).1).floor = e.floor := by
  unfold Elevator.remove_passenger
  split
  · simp [Res.state]
  · split
    · simp [Res.state]
    · dsimp only
      split <;> simp [Res.state]

/-- The disembarking loop never moves the car. -/
theorem floor_disembarkAll (snap : List Passenger) (e : Elevator) (floor : Int)
    (rng : List Nat) :
    (((Elevator.disembarkAll e floor rng snap).state).1).floor = e.floor := by
  induction snap generalizing e rng with
  | nil => simp [Elevator.disembarkAll, Res.state]
  | cons p rest ih =>
    unfold Elevator.disembarkAll
    split
    · have hfl := floor_remove_passenger e p rng
      cases hrp : e.remove_passenger p rng with
      | exn err tr =>
        obtain ⟨e', p', rng'⟩ := tr
        rw [hrp] at hfl
        simpa [Res.state] using hfl
      | ok tr =>
        obtain ⟨e', p', rng'⟩ := tr
        rw [hrp] at hfl
        simp only [Res.state] at hfl
        have h2 := ih e' rng'
        dsimp only
        cases hd : Elevator.disembarkAll e' floor rng' rest with
        | ok tr2 =>
          obtain ⟨e'', o, r⟩ := tr2
          rw [hd] at h2
          simp only [Res.state] at h2
          simp only [Res.state]
          rw [h2, hfl]
        | exn err2 tr2 =>
          obtain ⟨e'', o, r⟩ := tr2
          rw [hd] at h2
          simp only [Res.state] at h2
          simp only [Res.state]
          rw [h2, hfl]
    · exact ih e rng

/-- After a disembarking loop returns normally over a snapshot covering
every aboard rider bound for `floor`, no remaining passenger is bound
for `floor`. -/
theorem disembarkAll_ok_clears (snap : List Passenger) (e : Elevator)
    (floor : Int) (rng : List Nat) (e' : Elevator) (out : List Passenger)
    (rng' : List Nat)
    (h : Elevator.disembarkAll e floor rng snap = Res.ok (e', out, rng'))
    (hcover : ∀ q ∈ e.passengers, q.floor_destination = floor → q ∈ snap) :
    ∀ q ∈ e'.passengers, q.floor_destination ≠ floor := by
  induction snap generalizing e rng out rng' with
  | nil =>
    unfold Elevator.disembarkAll at h
    simp only [Res.ok.injEq, Prod.mk.injEq] at h
    obtain ⟨hE, -, -⟩ := h
    subst hE
    intro q hq hqf
    exact absurd (hcover q hq hqf) (List.not_mem_nil q)
  | cons p rest ih =>
    unfold Elevator.disembarkAll at h
    by_cases hpf : p.floor_destination = floor
    · rw [if_pos hpf] at h
      cases hrp : e.remove_passenger p rng with
      | exn err tr =>
        obtain ⟨e1, p1, r1⟩ := tr
        rw [hrp] at h
        exact Res.noConfusion h
      | ok tr =>
        obtain ⟨e1, p1, r1⟩ := tr
        rw [hrp] at h
        dsimp only at h
        cases hd : Elevator.disembarkAll e1 floor r1 rest with
        | exn err2 tr2 =>
          obtain ⟨e2, o2, r2⟩ := tr2
          rw [hd] at h
          exact Res.noConfusion h
        | ok tr2 =>
          obtain ⟨e2, o2, r2⟩ := tr2
          rw [hd] at h
          simp only [Res.ok.injEq, Prod.mk.injEq] at h
          obtain ⟨hE, -, -⟩ := h
          subst hE
          refine ih e1 r1 o2 r2 hd ?_
          intro q hq hqf
          have he1 := remove_passenger_ok_shape e p rng e1 p1 r1 hrp
          rw [he1] at hq
          simp only [List.mem_filter, decide_not] at hq
          obtain ⟨hqmem, hqid⟩ := hq
          rcases List.mem_cons.1 (hcover q hqmem hqf) with rfl | hqr
          · simp at hqid
          · exact hqr
    · rw [if_neg hpf] at h
      refine ih e rng out rng' h ?_
      intro q hq hqf
      rcases List.mem_cons.1 (hcover q hq hqf) with rfl | hqr
      · exact absurd hqf hpf
      · exact hqr

/-- A successful Python index into `all_passengers` returns one of its
member lists. -/
theorem pyIndex_ok_mem (allP : List (List Passenger)) (i : Int)
    (w : List Passenger) (h : Elevator.pyIndex allP i = Res.ok w) :
    w ∈ allP := by
  unfold Elevator.pyIndex at h
  split at h
  · simp only [Res.ok.injEq] at h
    subst h
    exact List.get_mem allP _ _
  · exact Res.noConfusion h

/-- The boarding step preserves the combined invariant when every rider
in the offered per-floor lists has an in-domain destination. -/
theorem inv_boardStep (e : Elevator) (allP : List (List Passenger))
    (hwf : ∀ l ∈ allP, ∀ p ∈ l, destValid p) (h : CoreInv e) :
    CoreInv ((Elevator.boardStep e allP).state) := by
  unfold Elevator.boardStep
  split
  · cases hpi : Elevator.pyIndex allP e.floor with
    | exn err w => simpa [Res.state] using h
    | ok w =>
      exact inv_boardAll w e (hwf w (pyIndex_ok_mem allP e.floor w hpi)) h
  · simpa [Res.state] using h

/-- The door cycle preserves the combined invariant when every rider in
the offered per-floor lists has an in-domain destination. -/
theorem inv_doorCycle (e : Elevator) (allP : List (List Passenger)) (rng : List Nat)
    (hwf : ∀ l ∈ allP, ∀ p ∈ l, destValid p) (h : CoreInv e) :
    CoreInv (((Elevator.doorCycle e allP rng).state).1) := by
  unfold Elevator.doorCycle
  cases hod : e.open_doors with
  | exn err e2 =>
    have := inv_open_doors e h
    rw [hod] at this
    simpa [Res.state] using this
  | ok e3 =>
    have h3 := inv_open_doors e h
    rw [hod] at h3
    simp only [Res.state] at h3
    dsimp only
    cases hbs : Elevator.boardStep e3 allP with
    | exn err e4 =>
      have := inv_boardStep e3 allP hwf h3
      rw [hbs] at this
      simpa [Res.state] using this
    | ok e4 =>
      have h4 := inv_boardStep e3 allP hwf h3
      rw [hbs] at h4
      simp only [Res.state] at h4
      dsimp only
      cases hda : Elevator.disembarkAll e4 e4.floor rng e4.passengers with
      | exn err tr =>
        obtain ⟨e5, o, r⟩ := tr
        have := inv_disembarkAll e4.passengers e4 e4.floor rng h4
        rw [hda] at this
        simpa [Res.state] using this
      | ok tr =>
        obtain ⟨e5, o, r⟩ := tr
        have h5 := inv_disembarkAll e4.passengers e4 e4.floor rng h4
        rw [hda] at h5
        simp only [Res.state] at h5
        have hclear := disembarkAll_ok_clears e4.passengers e4 e4.floor rng e5 o r
          hda (fun q hq _ => hq)
        have hfl := floor_disembarkAll e4.passengers e4 e4.floor rng
        rw [hda] at hfl
        simp only [Res.state] at hfl
        dsimp only
        cases hcd : e5.close_doors with
        | exn err e6 =>
          have := inv_close_doors e5 h5
          rw [hcd] at this
          simpa [Res.state] using this
        | ok e6 =>
          have he6 := close_doors_ok_shape e5 e6 hcd
          subst he6
          simp only [Res.state]
          refine ⟨?_, ?_⟩
          · intro f hf
            exact h5.1 f ((mem_pySetRemove _ _ _).1 hf).1
          · intro q hq
            refine (mem_pySetRemove _ _ _).2 ⟨h5.2 q hq, ?_⟩
            show q.floor_destination ≠ e5.floor
            rw [hfl]
            exact hclear q hq

/-- The direction correction never touches the passenger set. -/
theorem directionCorrect_passengers (e : Elevator) :
    (Elevator.directionCorrect e).passengers = e.passengers := by
  obtain ⟨st, d, fl, q, ps⟩ := e
  unfold Elevator.directionCorrect Elevator.change_direction
  split_ifs <;> cases d <;> rfl

/-- The direction correction preserves the combined invariant. -/
theorem inv_directionCorrect (e : Elevator) (h : CoreInv e) :
    CoreInv (Elevator.directionCorrect e) := by
  constructor
  · intro f hf
    rw [directionCorrect_queue] at hf
    exact h.1 f hf
  · intro q hq
    rw [directionCorrect_passengers] at hq
    rw [directionCorrect_queue]
    exact h.2 q hq

/-- The `try` block of `move` preserves the combined invariant. -/
theorem inv_moveTry (e : Elevator) (allP : List (List Passenger)) (rng : List Nat)
    (hwf : ∀ l ∈ allP, ∀ p ∈ l, destValid p) (h : CoreInv e) :
    CoreInv (((Elevator.moveTry e allP rng).state).1) := by
  unfold Elevator.moveTry
  cases hsf : e.set_floor (if e.direction = .up then e.floor + 1 else e.floor - 1) with
  | exn err e1 =>
    have := inv_set_floor e (if e.direction = .up then e.floor + 1 else e.floor - 1) h
    rw [hsf] at this
    simpa [Res.state] using this
  | ok e1 =>
    have h1 := inv_set_floor e (if e.direction = .up then e.floor + 1 else e.floor - 1) h
    rw [hsf] at h1
    simp only [Res.state] at h1
    dsimp only
    split
    · exact inv_doorCycle { e1 with status := .idle } allP rng hwf h1
    · simpa [Res.state] using h1

/-- One `move()` call preserves the combined invariant, whatever the
exit path. -/
theorem inv_move (e : Elevator) (allP : List (List Passenger)) (rng : List Nat)
    (hwf : ∀ l ∈ allP, ∀ p ∈ l, destValid p) (h : CoreInv e) :
    CoreInv (((Elevator.move e allP rng).state).1) := by
  unfold Elevator.move
  split
  · simpa [Res.state] using h
  · split
    · simpa [Res.state] using h
    · have hmt0 := inv_moveTry { e with status := .moving } allP rng hwf h
      cases hmt : Elevator.moveTry { e with status := .moving } allP rng with
      | ok tr =>
        obtain ⟨m, o, r⟩ := tr
        rw [hmt] at hmt0
        simp only [Res.state] at hmt0
        dsimp only
        simp only [Res.state]
        exact inv_directionCorrect m hmt0
      | exn err tr =>
        obtain ⟨m, o, r⟩ := tr
        rw [hmt] at hmt0
        simp only [Res.state] at hmt0
        cases err <;> dsimp only <;> simp only [Res.state] <;>
          first
          | exact hmt0
          | exact inv_directionCorrect { m with status := .idle } hmt0

/-- One core operation preserves the combined invariant, given that its
rider arguments carry in-domain destinations. -/
theorem inv_step (s : Sys) (op : Op) (hwf : OpWF op) (h : CoreInv s.elev) :
    CoreInv (step s op).elev := by
  cases op with
  | addInside f => exact inv_add_floor_inside s.elev f h
  | addOutside f => exact inv_add_floor_outside s.elev f h
  | openDoors => exact inv_open_doors s.elev h
  | closeDoors => exact inv_close_doors s.elev h
  | board p => exact inv_add_passenger s.elev p hwf h
  | move allP => exact inv_move s.elev allP s.rng hwf h
  | disembark pid =>
    unfold step
    dsimp only
    cases hfind : s.elev.passengers.find? (fun q => q.id = pid) with
    | some p =>
      dsimp only
      exact inv_remove_passenger s.elev p s.rng h
    | none => exact h

/-- Every run of well-formed core operations preserves the combined
invariant. -/
theorem inv_run (ops : List Op) (s : Sys) (hwf : ∀ op ∈ ops, OpWF op)
    (h : CoreInv s.elev) : CoreInv (run s ops).elev := by
  induction ops generalizing s with
  | nil => exact h
  | cons op ops ih =>
    exact ih (step s op) (fun o ho => hwf o (List.mem_cons_of_mem op ho))
      (inv_step s op (hwf op (List.mem_cons_self op ops)) h)

/-- The initial elevator satisfies the combined invariant. -/
theorem inv_init : CoreInv Elevator.init := by
  constructor
  · intro f hf
    simp [Elevator.init] at hf
  · intro p hp
    simp [Elevator.init] at hp

/-- C9: starting from the freshly constructed elevator (empty queue),
every sequence of core operations — queue insertions from inside or
outside, movement steps, boarding, disembarking, door transitions —
keeps every floor of `floor_queue` inside `1..FLOOR_MAX_LIMIT`, given
that the rider destinations handed to boarding are themselves in the
validated floor domain. -/
theorem C9_theorem (rng : List Nat) (ops : List Op)
    (hwf : ∀ op ∈ ops, OpWF op) :
    ∀ f ∈ (run (Sys.init rng) ops).elev.floors_queue,
      1 ≤ f ∧ f ≤ FLOOR_MAX_LIMIT :=
  (inv_run ops (Sys.init rng) hwf inv_init).1

/-- C9, witness: after enqueueing floor 5 from inside, the queued floor
5 is within bounds. -/
theorem C9_witness : 1 ≤ (5 : Int) ∧ (5 : Int) ≤ FLOOR_MAX_LIMIT :=
  C9_theorem [] [Op.addInside 5]
    (by
      intro op hop
      rw [List.mem_singleton] at hop
      subst hop
      trivial)
    5 (by decide)

/-- C10: in every state reachable by core operations from the initial
elevator (rider arguments carrying validated destinations), the
`floor_destination` of every rider in `passengers` is a member of
`floor_queue`: boarding enqueues the rider's destination, and `move`
removes a floor from the queue only after disembarking every passenger
bound for it. -/
theorem C10_theorem (rng : List Nat) (ops : List Op)
    (hwf : ∀ op ∈ ops, OpWF op) :
    ∀ p ∈ (run (Sys.init rng) ops).elev.passengers,
      p.floor_destination ∈ (run (Sys.init rng) ops).elev.floors_queue :=
  (inv_run ops (Sys.init rng) hwf inv_init).2

/-- C10, witness: open the doors and board `pWait` (destination 4); the
boarded rider's destination 4 is in the queue. -/
theorem C10_witness :
    (boardedState pWait).floor_destination ∈
      (run (Sys.init []) [Op.openDoors, Op.board pWait]).elev.floors_queue :=
  C10_theorem [] [Op.openDoors, Op.board pWait]
    (by
      intro op hop
      rcases List.mem_cons.1 hop with rfl | hop
      · trivial
      · rw [List.mem_singleton] at hop
        subst hop
        exact ⟨by decide, by decide⟩)
    (boardedState pWait) (by decide)

/-- C5, witness: with seed stream `[0]` the door-cycle scenario computes
exactly the claimed outcome (the regenerated destination draws 1). -/
theorem C5_witness :
    (⟨.idle, .down, 2, [], []⟩ : Elevator).floor = 2 ∧
    (⟨.idle, .down, 2, [], []⟩ : Elevator).passengers = [] ∧
    (⟨.idle, .down, 2, [], []⟩ : Elevator).floors_queue = [] ∧
    (⟨.idle, .down, 2, [], []⟩ : Elevator).status = .idle ∧
    ∃ p', [(⟨7, 2, 1, false, false⟩ : Passenger)] = [p'] ∧ p'.id = pC5.id ∧
      p'.floor_current = 2 ∧ p'.is_inside = false ∧ p'.floor_destination ≠ 2 :=
  C5_theorem [0] ⟨.idle, .down, 2, [], []⟩ [⟨7, 2, 1, false, false⟩] [] rfl
